import Mathlib

/-!
Verification of the chat streaming core of the pocketpaw repository
(module `pocketpaw.api.v1.chat`): the event envelope, the session bridge,
the active-stream registry, the stream encoder, the aggregator and the
cancellation endpoint.  The module itself is absent from the sources
(only its test suite `tests/test_api_chat.py` is present), so every
definition below is modelled from the specification, constrained by the
observable behaviour the tests assert.
-/

set_option autoImplicit false

/-! ### Characters used by the wire encoding -/

/-- The newline character, code point 10. -/
def nlChar : Char := Char.ofNat 10

/-- The double-quote character, code point 34. -/
def quoteChar : Char := Char.ofNat 34

/-- The backslash character, code point 92. -/
def bslashChar : Char := Char.ofNat 92

/-- The carriage-return character, code point 13. -/
def crChar : Char := Char.ofNat 13

/-- The opening brace character, code point 123. -/
def lbraceChar : Char := Char.ofNat 123

/-- The closing brace character, code point 125. -/
def rbraceChar : Char := Char.ofNat 125

/-! ### Event envelopes -/

/-- Modelled from the spec: the Event Envelope (spec section 3), the atomic unit of
streamed information.  `kind` is one of `stream_start`, `chunk`, `stream_end`,
`error`; the payload shape depends on the kind: `stream_start` carries a
session id, `chunk` an incremental text fragment, `stream_end` a session id and
an opaque usage mapping (modelled as string-keyed token counts), `error` a
message.  The tests put exactly these dictionaries on the bridge queue. -/
inductive Envelope where
  | streamStart (session_id : String)
  | chunk (content : String)
  | streamEnd (session_id : String) (usage : List (String × Nat))
  | error (message : String)
deriving DecidableEq

/-- Whether an envelope is terminal (`stream_end` or `error`), spec section 3. -/
def Envelope.isTerminal : Envelope → Bool
  | .streamEnd _ _ => true
  | .error _ => true
  | _ => false

/-- Whether an envelope is a `stream_start` envelope. -/
def Envelope.isStreamStart : Envelope → Bool
  | .streamStart _ => true
  | _ => false

/-- The wire name of an envelope kind, as written on the `event:` line. -/
def Envelope.kindName : Envelope → String
  | .streamStart _ => "stream_start"
  | .chunk _ => "chunk"
  | .streamEnd _ _ => "stream_end"
  | .error _ => "error"

/-! ### Session bridge -/

/-- Modelled from the spec: the bridge lifecycle state `created → running → closed`
(spec section 3, Session Bridge). -/
inductive Lifecycle where
  | created
  | running
  | closed
deriving DecidableEq

/-- Modelled from the spec: `_APISessionBridge`, the per-request adapter owning one
event sink and the lifecycle of one generation (spec sections 3 and 4.1).  The
tests construct it as `_APISessionBridge(chat_id)` and read `bridge.chat_id`
and `bridge.queue`; the sink is an ordered unbounded queue of envelopes,
modelled as the list of envelopes appended so far. -/
structure APISessionBridge where
  chat_id : String
  queue : List Envelope
  state : Lifecycle
deriving DecidableEq

/-- Modelled from the spec: `create(session_id)` returns a bridge in state
`created` with an empty sink (spec section 4.1). -/
def APISessionBridge.create (chat_id : String) : APISessionBridge :=
  { chat_id := chat_id, queue := [], state := .created }

/-- Modelled from the spec: `start()` transitions the bridge to `running`
(spec section 4.1; the `StartFailure` branch belongs to the external engine
and is not needed by the claims). -/
def APISessionBridge.start (b : APISessionBridge) : APISessionBridge :=
  { b with state := .running }

/-- Modelled from the spec: `stop()` transitions the bridge to `closed`; it is
idempotent and no further envelopes are accepted after it returns
(spec section 4.1). -/
def APISessionBridge.stop (b : APISessionBridge) : APISessionBridge :=
  { b with state := .closed }

/-- Modelled from the spec: `emit(envelope)` appends to the sink while the bridge
is not closed; an emit after `stop()` is silently dropped without propagating
an error to the producer (spec section 4.1). -/
def APISessionBridge.emit (e : Envelope) (b : APISessionBridge) : APISessionBridge :=
  if b.state = .closed then b else { b with queue := b.queue ++ [e] }

/-! ### Active-stream registry and server state -/

/-- Modelled from the spec: `_active_streams`, the process-wide table mapping a
session identifier to a cancellation signal (spec section 3); the signal is an
`asyncio.Event` in the tests, modelled by its `is_set` boolean. -/
abbrev ActiveStreams := List (String × Bool)

/-- Looks up the cancellation signal registered for a session id. -/
def lookupSid (sid : String) : ActiveStreams → Option Bool
  | [] => none
  | (k, v) :: rest => if k = sid then some v else lookupSid sid rest

/-- Modelled from the spec: `register(session_id)` inserts a fresh unset
cancellation signal for the session (spec section 4.2). -/
def registerSid (sid : String) (streams : ActiveStreams) : ActiveStreams :=
  (sid, false) :: streams

/-- Modelled from the spec: `unregister(session_id)` removes the entry
unconditionally; safe to call even if already removed (spec section 4.2). -/
def unregisterSid (sid : String) (streams : ActiveStreams) : ActiveStreams :=
  streams.filter (fun p => p.1 ≠ sid)

/-- Sets the cancellation signal of the entry registered for `sid`, leaving all
other entries untouched; models `_active_streams[sid].set()`. -/
def setSignal (sid : String) : ActiveStreams → ActiveStreams
  | [] => []
  | (k, v) :: rest => if k = sid then (k, true) :: rest else (k, v) :: setSignal sid rest

/-- The mutable state the chat router's handlers can reach: the active-stream
registry and, for the frame claims, the bridges alive in the process. -/
structure ServerState where
  streams : ActiveStreams
  bridges : List (String × APISessionBridge)
deriving DecidableEq

/-- The outcome of the cancellation endpoint. -/
inductive StopResult where
  | bad_request
  | not_found
  | ok
deriving DecidableEq

/-- The HTTP status code equivalent of a cancellation outcome. -/
def StopResult.code : StopResult → Nat
  | .bad_request => 400
  | .not_found => 404
  | .ok => 200

/-- Modelled from the spec: the `POST /api/v1/chat/stop` handler (spec section 6,
cancellation endpoint semantics; tests `TestChatStop`).  With no session
identifier it answers a 400-equivalent; with an identifier that has no
registry entry it answers a 404-equivalent; otherwise it sets that entry's
cancellation signal and answers a 200-equivalent signaling "ok".  It touches
no state other than the signalled registry entry. -/
def stop_chat (sid : Option String) (st : ServerState) : StopResult × ServerState :=
  match sid with
  | none => (.bad_request, st)
  | some s =>
    match lookupSid s st.streams with
    | none => (.not_found, st)
    | some _ => (.ok, { st with streams := setSignal s st.streams })

/-! ### Consumers: drain loop and aggregator -/

/-- Modelled from the spec: the consumer read loop shared by the encoder and the
aggregator — it reads envelopes from the sink in order and stops right after
the first terminal envelope (spec sections 4.4 and 8.1): the sequence of
envelopes a consumer ever observes. -/
def drain : List Envelope → List Envelope
  | [] => []
  | e :: rest => if e.isTerminal then [e] else e :: drain rest

/-- Modelled from the spec: the Aggregated Response (spec section 3):
concatenated chunk content, the session id of the terminal envelope and its
usage mapping. -/
structure AggregatedResponse where
  content : String
  session_id : String
  usage : List (String × Nat)
deriving DecidableEq

/-- Modelled from the spec: `GenerationFailure`, carrying the message of the
`error` terminal envelope (spec sections 4.4 and 7). -/
structure GenerationFailure where
  message : String
deriving DecidableEq

/-- Modelled from the spec: the aggregator's fold, carrying the chunk content
accumulated so far.  It returns at the first terminal envelope: an
`AggregatedResponse` on `stream_end`, a `GenerationFailure` on `error`; `none`
means the sink never yielded a terminal envelope, in which case the blocking
aggregator never returns (spec section 4.4). -/
def aggregate_from (acc : String) : List Envelope → Option (Except GenerationFailure AggregatedResponse)
  | [] => none
  | .chunk c :: rest => aggregate_from (acc ++ c) rest
  | .streamStart _ :: rest => aggregate_from acc rest
  | .streamEnd sid u :: _ => some (.ok { content := acc, session_id := sid, usage := u })
  | .error m :: _ => some (.error { message := m })

/-- Modelled from the spec: `aggregate(bridge)` — reads the sink's envelopes in
order, concatenates `chunk.content`, and returns on the terminal envelope
(spec section 4.4). -/
def aggregate (events : List Envelope) : Option (Except GenerationFailure AggregatedResponse) :=
  aggregate_from "" events

/-- The first terminal envelope of an emitted sequence, if any. -/
def firstTerminal : List Envelope → Option Envelope
  | [] => none
  | e :: rest => if e.isTerminal then some e else firstTerminal rest

/-! ### Orchestration -/

/-- Modelled from the spec: the orchestration of one generation (spec sections 2,
4.5 and 6): register the session, create and start a bridge, let the engine
emit its envelopes into the sink, consume to the terminal envelope, then stop
the bridge and unregister the session on every exit path — success, engine
error or cancellation alike.  `none` means the engine never emitted a terminal
envelope, so the generation never completes. -/
def run_generation (sid : String) (engineEvents : List Envelope) (st : ServerState) :
    Option (ServerState × APISessionBridge × Except GenerationFailure AggregatedResponse) :=
  let st1 : ServerState := { st with streams := registerSid sid st.streams }
  let b0 := (APISessionBridge.create sid).start
  let b1 := engineEvents.foldl (fun b e => APISessionBridge.emit e b) b0
  match aggregate engineEvents with
  | none => none
  | some r => some ({ st1 with streams := unregisterSid sid st1.streams }, b1.stop, r)

/-- Modelled from the spec: the `POST /api/v1/chat` handler (tests
`TestChatSend`).  The request body is validated first — pydantic rejects an
empty `content` with a 422 before any bridge is created or registry entry
inserted — and only then is a generation run and aggregated. -/
def chat_send (content : String) (sid : String) (engineEvents : List Envelope) (st : ServerState) :
    Option (Nat × ServerState × Option AggregatedResponse) :=
  if content = "" then some (422, st, none)
  else
    match run_generation sid engineEvents st with
    | none => none
    | some (st2, _, .ok r) => some (200, st2, some r)
    | some (st2, _, .error _) => some (500, st2, none)

/-! ### Stream encoder -/

/-- JSON string escaping: quote, backslash, newline and carriage return are
escaped, every other character is passed through, so that the encoded payload
never contains a raw newline. -/
def escapeChar (c : Char) : List Char :=
  if c = quoteChar then [bslashChar, quoteChar]
  else if c = bslashChar then [bslashChar, bslashChar]
  else if c = nlChar then [bslashChar, 'n']
  else if c = crChar then [bslashChar, 'r']
  else [c]

/-- The decimal digits of a natural number, most significant first. -/
def natChars (n : Nat) : List Char :=
  if h : n < 10 then [Char.ofNat (48 + n)]
  else natChars (n / 10) ++ [Char.ofNat (48 + n % 10)]
decreasing_by exact Nat.div_lt_self (by omega) (by omega)

/-- The JSON encoding of a string: quoted and escaped. -/
def jsonStrChars (s : String) : List Char :=
  quoteChar :: s.data.flatMap escapeChar ++ [quoteChar]

/-- Joins JSON fragments with a comma-space separator. -/
def joinComma : List (List Char) → List Char
  | [] => []
  | [x] => x
  | x :: xs => x ++ ',' :: ' ' :: joinComma xs

/-- A JSON object member: the encoded key, a colon-space, then the value. -/
def keyValChars (k : String) (v : List Char) : List Char :=
  jsonStrChars k ++ ':' :: ' ' :: v

/-- A JSON object: braces around comma-joined members. -/
def objChars (fields : List (List Char)) : List Char :=
  lbraceChar :: joinComma fields ++ [rbraceChar]

/-- Modelled from the spec: the single-line JSON encoding of an envelope's
payload (spec sections 3 and 4.3): `stream_start` carries `session_id`,
`chunk` carries `content`, `stream_end` carries `session_id` and `usage`,
`error` carries `message`. -/
def payloadChars : Envelope → List Char
  | .streamStart sid => objChars [keyValChars "session_id" (jsonStrChars sid)]
  | .chunk c => objChars [keyValChars "content" (jsonStrChars c)]
  | .streamEnd sid u =>
      objChars [keyValChars "session_id" (jsonStrChars sid),
        keyValChars "usage" (objChars (u.map fun p => keyValChars p.1 (natChars p.2)))]
  | .error m => objChars [keyValChars "message" (jsonStrChars m)]

/-- The payload JSON as a string. -/
def payloadJson (e : Envelope) : String :=
  String.mk (payloadChars e)

/-- The `event:` line of an envelope's wire record. -/
def eventLine (e : Envelope) : String :=
  "event: " ++ e.kindName

/-- The `data:` line of an envelope's wire record. -/
def dataLine (e : Envelope) : String :=
  "data: " ++ payloadJson e

/-- Modelled from the spec: the wire record of one envelope as its list of
lines — a type line, a data line, then a blank line, in that exact order with
no other lines interleaved (spec section 4.3). -/
def sseLines (e : Envelope) : List String :=
  [eventLine e, dataLine e, ""]

/-- Modelled from the spec: the rendered wire record of one envelope
(spec section 6): `event: <kind>`, newline, `data: <single-line JSON>`,
newline, blank line. -/
def sse (e : Envelope) : String :=
  eventLine e ++ "\n" ++ dataLine e ++ "\n\n"

/-- Splits a sequence of lines on blank lines, the framing a consumer of the
event stream relies on to recover the discrete records. -/
def splitOnBlank : List String → List (List String)
  | [] => [[]]
  | l :: rest =>
    if l = "" then [] :: splitOnBlank rest
    else
      match splitOnBlank rest with
      | [] => [[l]]
      | g :: gs => (l :: g) :: gs

/-- Modelled from the spec: the event sequence of a streaming response
(spec section 4.3): the encoder synthesizes a `stream_start` envelope carrying
the session id assigned at bridge creation as the first record, before any
event produced by the engine, then relays the sink's envelopes up to and
including the terminal one. -/
def stream_events (sid : String) (sink : List Envelope) : List Envelope :=
  .streamStart sid :: drain sink

/-! ### Helper lemmas -/

theorem lookupSid_unregisterSid (sid : String) (l : ActiveStreams) :
    lookupSid sid (unregisterSid sid l) = none := by
  induction l with
  | nil => rfl
  | cons p rest ih =>
    obtain ⟨k, v⟩ := p
    by_cases h : k = sid
    · simpa [unregisterSid, List.filter_cons, h] using ih
    · simpa [unregisterSid, List.filter_cons, h, lookupSid] using ih

theorem lookupSid_setSignal (sid : String) (l : ActiveStreams) (b : Bool)
    (h : lookupSid sid l = some b) : lookupSid sid (setSignal sid l) = some true := by
  induction l with
  | nil => simp [lookupSid] at h
  | cons p rest ih =>
    obtain ⟨k, v⟩ := p
    by_cases hk : k = sid
    · simp [setSignal, lookupSid, hk]
    · simp only [setSignal, lookupSid, hk, if_false, if_neg hk] at h ⊢
      exact ih h

theorem mem_drain {e : Envelope} : ∀ {es : List Envelope}, e ∈ drain es → e ∈ es := by
  intro es
  induction es with
  | nil => simp [drain]
  | cons a rest ih =>
    simp only [drain]
    split
    · intro h
      simp only [List.mem_singleton] at h
      simp [h]
    · intro h
      rcases List.mem_cons.mp h with h | h
      · simp [h]
      · exact List.mem_cons_of_mem _ (ih h)

theorem string_join_cons (c : String) (cs : List String) :
    String.join (c :: cs) = c ++ String.join cs := by
  apply String.ext
  simp

theorem aggregate_from_chunks (cs : List String) (acc sid : String) (u : List (String × Nat)) :
    aggregate_from acc (cs.map Envelope.chunk ++ [Envelope.streamEnd sid u]) =
      some (.ok ⟨acc ++ String.join cs, sid, u⟩) := by
  induction cs generalizing acc with
  | nil =>
    simp only [List.map_nil, List.nil_append, aggregate_from]
    have : acc ++ String.join [] = acc := by
      apply String.ext
      simp [String.join]
    rw [this]
  | cons c cs ih =>
    have hstep : aggregate_from acc (List.map Envelope.chunk (c :: cs) ++ [Envelope.streamEnd sid u]) =
        aggregate_from (acc ++ c) (List.map Envelope.chunk cs ++ [Envelope.streamEnd sid u]) := rfl
    rw [hstep, ih, string_join_cons, String.append_assoc]

theorem aggregate_from_error (es : List Envelope) (m : String) :
    ∀ acc, firstTerminal es = some (.error m) →
      aggregate_from acc es = some (.error ⟨m⟩) := by
  induction es with
  | nil => intro acc h; simp [firstTerminal] at h
  | cons e rest ih =>
    intro acc h
    cases e with
    | chunk c =>
      simp only [firstTerminal, Envelope.isTerminal, if_neg] at h
      exact ih _ h
    | streamStart s =>
      simp only [firstTerminal, Envelope.isTerminal, if_neg] at h
      exact ih _ h
    | streamEnd s u =>
      simp [firstTerminal, Envelope.isTerminal] at h
    | error m2 =>
      simp only [firstTerminal, Envelope.isTerminal, if_pos, Option.some.injEq,
        Envelope.error.injEq] at h
      subst h
      rfl

/-! ### Claim theorems -/

/-- Claim C1: for every bridge whose sink yields chunk envelopes followed by a
`stream_end` terminal envelope, the aggregator returns content equal to the
concatenation of all chunk contents in emission order and the session id of
the terminal envelope; in particular chunks "Hello " and "world" aggregate to
"Hello world". -/
theorem aggregate_concatenates_chunks (cs : List String) (sid : String)
    (u : List (String × Nat)) :
    aggregate (cs.map Envelope.chunk ++ [Envelope.streamEnd sid u]) =
      some (.ok ⟨String.join cs, sid, u⟩) ∧
    aggregate [Envelope.chunk "Hello ", Envelope.chunk "world",
        Envelope.streamEnd "api:test123" []] =
      some (.ok ⟨"Hello world", "api:test123", []⟩) := by
  constructor
  · have h := aggregate_from_chunks cs "" sid u
    have he : ("" : String) ++ String.join cs = String.join cs := by
      apply String.ext
      simp
    rw [he] at h
    exact h
  · rfl

/-- Claim C3: the cancellation endpoint returns a 400-equivalent when no
session identifier is supplied, a 404-equivalent when the identifier has no
registry entry, and when an entry exists it sets that entry's cancellation
signal and returns a 200-equivalent signaling "ok". -/
theorem stop_chat_semantics (sid : Option String) (st : ServerState) :
    (sid = none → stop_chat sid st = (.bad_request, st) ∧ (stop_chat sid st).1.code = 400) ∧
    (∀ s, sid = some s → lookupSid s st.streams = none →
      stop_chat sid st = (.not_found, st) ∧ (stop_chat sid st).1.code = 404) ∧
    (∀ s b, sid = some s → lookupSid s st.streams = some b →
      (stop_chat sid st).1 = .ok ∧ (stop_chat sid st).1.code = 200 ∧
      lookupSid s (stop_chat sid st).2.streams = some true) := by
  refine ⟨?_, ?_, ?_⟩
  · rintro rfl
    exact ⟨rfl, rfl⟩
  · rintro s rfl hl
    simp [stop_chat, hl, StopResult.code]
  · rintro s b rfl hl
    have hs : stop_chat (some s) st = (.ok, { st with streams := setSignal s st.streams }) := by
      simp [stop_chat, hl]
    rw [hs]
    exact ⟨rfl, rfl, lookupSid_setSignal s st.streams b hl⟩

/-- Witness for claim C3: the three branches at concrete inputs. -/
theorem stop_chat_semantics_witness :
    (stop_chat none ⟨[], []⟩ = (.bad_request, ⟨[], []⟩) ∧
      (stop_chat none (⟨[], []⟩ : ServerState)).1.code = 400) ∧
    (stop_chat (some "x") ⟨[], []⟩ = (.not_found, ⟨[], []⟩) ∧
      (stop_chat (some "x") (⟨[], []⟩ : ServerState)).1.code = 404) ∧
    ((stop_chat (some "s") ⟨[("s", false)], []⟩).1 = .ok ∧
      (stop_chat (some "s") (⟨[("s", false)], []⟩ : ServerState)).1.code = 200 ∧
      lookupSid "s" (stop_chat (some "s") ⟨[("s", false)], []⟩).2.streams = some true) :=
  ⟨(stop_chat_semantics none ⟨[], []⟩).1 rfl,
   (stop_chat_semantics (some "x") ⟨[], []⟩).2.1 "x" rfl rfl,
   (stop_chat_semantics (some "s") ⟨[("s", false)], []⟩).2.2 "s" false rfl rfl⟩

/-- Claim C7: if the terminal envelope consumed by the aggregator is an error
envelope, aggregation fails with a `GenerationFailure` carrying that
envelope's message and never returns an aggregated response as a success. -/
theorem aggregate_error_fails (es : List Envelope) (m : String)
    (h : firstTerminal es = some (.error m)) :
    aggregate es = some (.error ⟨m⟩) ∧
    ∀ r, aggregate es ≠ some (.ok r) := by
  have hmain : aggregate es = some (.error ⟨m⟩) := aggregate_from_error es m "" h
  refine ⟨hmain, fun r hr => ?_⟩
  rw [hmain] at hr
  simp at hr

/-- Witness for claim C7: a sink ending in an error envelope. -/
theorem aggregate_error_fails_witness :
    aggregate [Envelope.chunk "a", Envelope.error "boom"] =
      some (.error ⟨"boom"⟩) ∧
    ∀ r, aggregate [Envelope.chunk "a", Envelope.error "boom"] ≠ some (.ok r) :=
  aggregate_error_fails [Envelope.chunk "a", Envelope.error "boom"] "boom" rfl

/-- Claim C8: `stop()` is idempotent, and an `emit` issued after `stop()` has
returned leaves the sink unchanged and propagates no error to the producer. -/
theorem stop_idempotent_emit_dropped (b : APISessionBridge) (e : Envelope) :
    b.stop.stop = b.stop ∧
    b.stop.emit e = b.stop ∧
    (b.stop.emit e).queue = b.stop.queue := by
  refine ⟨rfl, ?_, ?_⟩ <;> simp [APISessionBridge.emit, APISessionBridge.stop]

/-- Claim C9: cancelling a session id with no registry entry returns "not
found" and leaves the whole server state unchanged: the registry mapping,
every other session's signal and every bridge are exactly as before. -/
theorem stop_chat_unknown_pure (s : String) (st : ServerState)
    (h : lookupSid s st.streams = none) :
    stop_chat (some s) st = (.not_found, st) ∧
    (stop_chat (some s) st).2.streams = st.streams ∧
    (stop_chat (some s) st).2.bridges = st.bridges := by
  have hmain : stop_chat (some s) st = (.not_found, st) := by
    simp [stop_chat, h]
  exact ⟨hmain, by rw [hmain], by rw [hmain]⟩

/-- Witness for claim C9: cancelling an unknown session while another
session is registered. -/
theorem stop_chat_unknown_pure_witness :
    stop_chat (some "nonexistent") ⟨[("other", false)], []⟩ =
      (.not_found, ⟨[("other", false)], []⟩) ∧
    (stop_chat (some "nonexistent") (⟨[("other", false)], []⟩ : ServerState)).2.streams =
      [("other", false)] ∧
    (stop_chat (some "nonexistent") (⟨[("other", false)], []⟩ : ServerState)).2.bridges = [] :=
  stop_chat_unknown_pure "nonexistent" ⟨[("other", false)], []⟩ rfl

/-- Claim C10: a chat request whose body has empty content is rejected by
input validation with status 422, before any bridge is created or any
registry entry inserted: the server state is returned unchanged. -/
theorem chat_send_empty_content_422 (sid : String) (engineEvents : List Envelope)
    (st : ServerState) :
    chat_send "" sid engineEvents st = some (422, st, none) := by
  rfl

/-- Claim C2: whenever the engine emitted a terminal envelope, the sequence a
consumer observes contains exactly one terminal envelope, and it is the last
envelope observed. -/
theorem drain_terminal_unique (es : List Envelope)
    (h : ∃ e ∈ es, e.isTerminal = true) :
    (drain es).countP (fun e => e.isTerminal) = 1 ∧
    ∃ t, (drain es).getLast? = some t ∧ t.isTerminal = true := by
  induction es with
  | nil => simp at h
  | cons e rest ih =>
    by_cases he : e.isTerminal
    · refine ⟨?_, e, ?_, he⟩
      · simp [drain, he, List.countP_cons]
      · simp [drain, he]
    · have h' : ∃ x ∈ rest, x.isTerminal = true := by
        rcases h with ⟨x, hx, hxt⟩
        rcases List.mem_cons.mp hx with rfl | hx
        · exact absurd hxt (by simpa using he)
        · exact ⟨x, hx, hxt⟩
      obtain ⟨hc, t, hl, ht⟩ := ih h'
      refine ⟨?_, t, ?_, ht⟩
      · simp [drain, he, List.countP_cons, hc]
      · cases hdr : drain rest with
        | nil => rw [hdr] at hl; simp at hl
        | cons x xs =>
          rw [hdr] at hl
          simp only [drain, he, if_neg, Bool.false_eq_true, ite_false, hdr]
          rw [List.getLast?_cons_cons]
          exact hl

/-- Witness for claim C2: a sink with chunks, a terminal envelope and a late
envelope after it. -/
theorem drain_terminal_unique_witness :
    (drain [Envelope.chunk "a", Envelope.streamEnd "s" [], Envelope.chunk "late"]).countP
      (fun e => e.isTerminal) = 1 ∧
    ∃ t, (drain [Envelope.chunk "a", Envelope.streamEnd "s" [],
      Envelope.chunk "late"]).getLast? = some t ∧ t.isTerminal = true :=
  drain_terminal_unique [Envelope.chunk "a", Envelope.streamEnd "s" [], Envelope.chunk "late"]
    ⟨Envelope.streamEnd "s" [], by decide, rfl⟩

/-- Claim C5: the encoder synthesizes a `stream_start` envelope carrying the
session id assigned at bridge creation; it is always the first record, every
later record is derived from the sink, and — the engine itself emitting no
`stream_start` — it occurs exactly once in the streamed sequence. -/
theorem stream_start_first (sid : String) (sink : List Envelope) :
    stream_events sid sink = Envelope.streamStart sid :: drain sink ∧
    (stream_events sid sink).head? = some (Envelope.streamStart sid) ∧
    ((∀ e ∈ sink, e.isStreamStart = false) →
      (stream_events sid sink).countP (fun e => e.isStreamStart) = 1) := by
  refine ⟨rfl, rfl, fun h => ?_⟩
  have h0 : (drain sink).countP (fun e => e.isStreamStart) = 0 := by
    rw [List.countP_eq_zero]
    intro a ha
    simp [h a (mem_drain ha)]
  show (Envelope.streamStart sid :: drain sink).countP (fun e => e.isStreamStart) = 1
  rw [List.countP_cons, h0]
  rfl

/-- Witness for claim C5: the encoder's sequence for a sink of one chunk and a
terminal envelope. -/
theorem stream_start_first_witness :
    (stream_events "api:sse-test" [Envelope.chunk "hi",
      Envelope.streamEnd "api:sse-test" []]).countP (fun e => e.isStreamStart) = 1 :=
  (stream_start_first "api:sse-test"
    [Envelope.chunk "hi", Envelope.streamEnd "api:sse-test" []]).2.2 (by decide)

/-- Claim C6: after a generation reaches a terminal envelope — normal end,
engine error or cancellation alike — the active-stream registry holds no entry
for its session id and its bridge is closed. -/
theorem run_generation_releases (sid : String) (engineEvents : List Envelope)
    (st st2 : ServerState) (b : APISessionBridge)
    (r : Except GenerationFailure AggregatedResponse)
    (h : run_generation sid engineEvents st = some (st2, b, r)) :
    lookupSid sid st2.streams = none ∧ b.state = .closed := by
  unfold run_generation at h
  cases hagg : aggregate engineEvents with
  | none => rw [hagg] at h; simp at h
  | some r2 =>
    rw [hagg] at h
    simp only [Option.some.injEq, Prod.mk.injEq] at h
    obtain ⟨h1, h2, -⟩ := h
    subst h1
    subst h2
    exact ⟨lookupSid_unregisterSid sid _, rfl⟩

/-- Witness for claim C6: a run that ends with a normal terminal envelope. -/
theorem run_generation_releases_witness :
    lookupSid "s" (ServerState.mk [] []).streams = none ∧
    (APISessionBridge.mk "s" [Envelope.streamEnd "s" []] Lifecycle.closed).state =
      Lifecycle.closed :=
  run_generation_releases "s" [Envelope.streamEnd "s" []] ⟨[], []⟩ ⟨[], []⟩
    ⟨"s", [Envelope.streamEnd "s" []], Lifecycle.closed⟩
    (.ok ⟨"", "s", []⟩) rfl

theorem nlChar_not_mem_escapeChar (c : Char) : nlChar ∉ escapeChar c := by
  unfold escapeChar
  split
  · decide
  split
  · decide
  split
  · decide
  split
  · decide
  rename_i h1 h2 h3 h4
  simp only [List.mem_singleton]
  exact fun h => h3 h.symm

theorem nlChar_not_mem_natChars (n : Nat) : nlChar ∉ natChars n := by
  induction n using Nat.strong_induction_on with
  | _ n ih =>
    unfold natChars
    split
    · rename_i h
      interval_cases n <;> decide
    · rename_i h
      simp only [List.mem_append, List.mem_singleton]
      push_neg
      refine ⟨ih (n / 10) (Nat.div_lt_self (by omega) (by omega)), ?_⟩
      have h10 : n % 10 < 10 := Nat.mod_lt _ (by omega)
      revert h10
      generalize n % 10 = m
      intro h10
      interval_cases m <;> decide

theorem nlChar_not_mem_jsonStrChars (s : String) : nlChar ∉ jsonStrChars s := by
  intro hmem
  unfold jsonStrChars at hmem
  rcases List.mem_cons.mp hmem with heq | hmem
  · exact absurd heq (by decide)
  rcases List.mem_append.mp hmem with hmem | hmem
  · obtain ⟨a, -, ha⟩ := List.mem_flatMap.mp hmem
    exact nlChar_not_mem_escapeChar a ha
  · exact absurd (List.mem_singleton.mp hmem) (by decide)

theorem nlChar_not_mem_joinComma (fs : List (List Char))
    (h : ∀ f ∈ fs, nlChar ∉ f) : nlChar ∉ joinComma fs := by
  induction fs with
  | nil => simp [joinComma]
  | cons x xs ih =>
    cases xs with
    | nil => simpa [joinComma] using h x (by simp)
    | cons y ys =>
      have hx : nlChar ∉ x := h x (by simp)
      have hrest : nlChar ∉ joinComma (y :: ys) :=
        ih (fun f hf => h f (List.mem_cons_of_mem _ hf))
      intro hmem
      rw [show joinComma (x :: y :: ys) = x ++ ',' :: ' ' :: joinComma (y :: ys) from rfl] at hmem
      rcases List.mem_append.mp hmem with hmem | hmem
      · exact hx hmem
      rcases List.mem_cons.mp hmem with heq | hmem
      · exact absurd heq (by decide)
      rcases List.mem_cons.mp hmem with heq | hmem
      · exact absurd heq (by decide)
      · exact hrest hmem

theorem nlChar_not_mem_keyValChars (k : String) (v : List Char)
    (hv : nlChar ∉ v) : nlChar ∉ keyValChars k v := by
  intro hmem
  unfold keyValChars at hmem
  rcases List.mem_append.mp hmem with hmem | hmem
  · exact nlChar_not_mem_jsonStrChars k hmem
  rcases List.mem_cons.mp hmem with heq | hmem
  · exact absurd heq (by decide)
  rcases List.mem_cons.mp hmem with heq | hmem
  · exact absurd heq (by decide)
  · exact hv hmem

theorem nlChar_not_mem_objChars (fs : List (List Char))
    (h : ∀ f ∈ fs, nlChar ∉ f) : nlChar ∉ objChars fs := by
  intro hmem
  unfold objChars at hmem
  rcases List.mem_cons.mp hmem with heq | hmem
  · exact absurd heq (by decide)
  rcases List.mem_append.mp hmem with hmem | hmem
  · exact nlChar_not_mem_joinComma fs h hmem
  · exact absurd (List.mem_singleton.mp hmem) (by decide)

theorem nlChar_not_mem_payloadChars (e : Envelope) : nlChar ∉ payloadChars e := by
  cases e with
  | streamStart sid =>
    apply nlChar_not_mem_objChars
    intro f hf
    simp only [List.mem_singleton] at hf
    subst hf
    exact nlChar_not_mem_keyValChars _ _ (nlChar_not_mem_jsonStrChars sid)
  | chunk c =>
    apply nlChar_not_mem_objChars
    intro f hf
    simp only [List.mem_singleton] at hf
    subst hf
    exact nlChar_not_mem_keyValChars _ _ (nlChar_not_mem_jsonStrChars c)
  | streamEnd sid u =>
    apply nlChar_not_mem_objChars
    intro f hf
    rcases List.mem_cons.mp hf with rfl | hf
    · exact nlChar_not_mem_keyValChars _ _ (nlChar_not_mem_jsonStrChars sid)
    rcases List.mem_cons.mp hf with rfl | hf
    swap
    · exact absurd hf (List.not_mem_nil _)
    · apply nlChar_not_mem_keyValChars
      apply nlChar_not_mem_objChars
      intro g hg
      simp only [List.mem_map] at hg
      obtain ⟨p, -, rfl⟩ := hg
      exact nlChar_not_mem_keyValChars _ _ (nlChar_not_mem_natChars p.2)
  | error m =>
    apply nlChar_not_mem_objChars
    intro f hf
    simp only [List.mem_singleton] at hf
    subst hf
    exact nlChar_not_mem_keyValChars _ _ (nlChar_not_mem_jsonStrChars m)

theorem eventLine_ne_empty (e : Envelope) : eventLine e ≠ "" := by
  cases e with
  | streamStart s => show ("event: stream_start" : String) ≠ ""; decide
  | chunk c => show ("event: chunk" : String) ≠ ""; decide
  | streamEnd s u => show ("event: stream_end" : String) ≠ ""; decide
  | error m => show ("event: error" : String) ≠ ""; decide

theorem dataLine_ne_empty (e : Envelope) : dataLine e ≠ "" := by
  intro h
  have hd : (dataLine e).data = [] := by rw [h]
  have hshape : (dataLine e).data = "data: ".data ++ payloadChars e := rfl
  rw [hshape] at hd
  simp at hd

theorem splitOnBlank_blank (t : List String) :
    splitOnBlank ("" :: t) = [] :: splitOnBlank t := by
  rw [splitOnBlank]
  simp

theorem splitOnBlank_record (a b : String) (t : List String)
    (ha : a ≠ "") (hb : b ≠ "") :
    splitOnBlank (a :: b :: "" :: t) = [a, b] :: splitOnBlank t := by
  have hinner : splitOnBlank (b :: "" :: t) = [b] :: splitOnBlank t := by
    rw [splitOnBlank, if_neg hb, splitOnBlank_blank]
  rw [splitOnBlank, if_neg ha, hinner]

theorem splitOnBlank_sse (es : List Envelope) :
    splitOnBlank ((es.map sseLines).flatten) =
      es.map (fun e => [eventLine e, dataLine e]) ++ [[]] := by
  induction es with
  | nil => rfl
  | cons e rest ih =>
    have hshape : ((e :: rest).map sseLines).flatten =
        eventLine e :: dataLine e :: "" :: ((rest.map sseLines).flatten) := rfl
    rw [hshape,
      splitOnBlank_record _ _ _ (eventLine_ne_empty e) (dataLine_ne_empty e), ih]
    rfl

/-- Claim C4: every envelope's wire serialization is exactly a type line
carrying its kind, a data line carrying the payload as single-line JSON (no
raw newline in either line's body), then a blank line, in that order with
nothing interleaved, so splitting the line stream on blank lines recovers the
discrete records. -/
theorem sse_wire_format :
    (∀ e : Envelope,
      sse e = eventLine e ++ "\n" ++ dataLine e ++ "\n\n" ∧
      sseLines e = [eventLine e, dataLine e, ""] ∧
      eventLine e = "event: " ++ e.kindName ∧
      dataLine e = "data: " ++ payloadJson e ∧
      nlChar ∉ (payloadJson e).data ∧
      nlChar ∉ e.kindName.data) ∧
    (∀ es : List Envelope,
      splitOnBlank ((es.map sseLines).flatten) =
        es.map (fun e => [eventLine e, dataLine e]) ++ [[]]) := by
  refine ⟨fun e => ⟨rfl, rfl, rfl, rfl, nlChar_not_mem_payloadChars e, ?_⟩,
    splitOnBlank_sse⟩
  cases e with
  | streamStart s => show nlChar ∉ ("stream_start" : String).data; decide
  | chunk c => show nlChar ∉ ("chunk" : String).data; decide
  | streamEnd s u => show nlChar ∉ ("stream_end" : String).data; decide
  | error m => show nlChar ∉ ("error" : String).data; decide
